import Mathlib

/-!
Shallow embedding of the gophermart loyalty backend's money-movement core:
the `orders`, `users` and `ledger` tables, the transactional wrapper
`db.Transaction`, the money service operations `orders.Accrue` and
`users.Withdraw`, and one pass of the accrual poller `processOrders`.

Conventions of the embedding:
- `NUMERIC(8,2)` money amounts are modelled as `Int` (the fixed-point values,
  which shopspring decimal adds, subtracts and compares exactly).
- Order numbers are modelled as the `bigint` values the `orders.number` column
  stores (the Go code exchanges them as their canonical decimal strings).
- A nullable SQL value is an `Option Int`; inserting or computing a `NULL`
  into a `NOT NULL` column is a constraint-violation error, as in PostgreSQL.
- Each table is a list of rows; an `UPDATE ... WHERE` maps over every matching
  row and reports the number of affected rows, a `QueryRow` takes the first
  matching row together with a `found` flag.
-/

namespace Gophermart

/-- Order lifecycle statuses (part_003:180-188; the localEnv revision includes
REGISTERED). -/
inductive Status
  | new
  | registered
  | processing
  | invalid
  | processed
deriving DecidableEq

/-- Ledger operation kinds (part_012:177-182): `debit` credits the user's
account (points earned), `credit` debits it (points withdrawn). -/
inductive TxType
  | debit
  | credit
deriving DecidableEq

/-- The error values these functions return: the named business errors of the
orders/users/db packages, the PostgreSQL not-null constraint violation, and
`dbError` standing for an injected transient DB failure. -/
inductive Err
  | noSuchOrder
  | noSuchUser
  | insufficientFunds
  | nestedTransaction
  | notNullViolation
  | dbError
deriving DecidableEq

/-- A row of `users(id, login, password, balance, withdrawn)`; only the fields
the money service touches are modelled. -/
structure UserRow where
  id : Nat
  balance : Int
  withdrawn : Int
deriving DecidableEq

/-- A row of `orders(number, user_id, uploaded_at, status, accrual)`; the
`accrual` column is nullable (db.go:338-344). -/
structure OrderRow where
  number : Int
  userId : Nat
  status : Status
  accrual : Option Int
deriving DecidableEq

/-- A row of `ledger(id, user_id, order_number, processed_at, operation, value)`;
the `value` column is NOT NULL (db.go:386-393). -/
structure LedgerRow where
  userId : Nat
  orderNumber : Int
  operation : TxType
  value : Int
deriving DecidableEq

/-- The three tables the money service reads and writes. -/
structure DBState where
  users : List UserRow
  orders : List OrderRow
  ledger : List LedgerRow
deriving DecidableEq

/-- The `Order` value the poller hands to `Accrue` (part_003:190-196 restricted
to the fields `Accrue` reads). -/
structure OrderArg where
  number : Int
  userId : Nat
  status : Status
  accrual : Option Int
deriving DecidableEq

/-- orders.Update (part_003:246-254):
`UPDATE orders SET status = $1, accrual = $2 WHERE number = $3::bigint`.
Returns the new table and the number of affected rows; the `accrual` column is
nullable, so a NULL accrual is simply stored. -/
def ordersUpdate (tbl : List OrderRow) (number : Int) (s : Status) (a : Option Int) :
    List OrderRow × Nat :=
  (tbl.map fun r => if r.number = number then { r with status := s, accrual := a } else r,
   (tbl.filter fun r => decide (r.number = number)).length)

/-- Step 2 of Accrue (part_003:308-313):
`UPDATE users SET balance = balance + $1 WHERE id = $2`.
`users.balance` is NOT NULL (db.go:292-298), so adding a NULL accrual to an
existing row is a not-null violation; with no matching row the statement
affects 0 rows and does not error. -/
def usersAddBalance (tbl : List UserRow) (a : Option Int) (uid : Nat) :
    Except Err (List UserRow × Nat) :=
  let n := (tbl.filter fun r => decide (r.id = uid)).length
  match a with
  | none => if n = 0 then .ok (tbl, 0) else .error .notNullViolation
  | some v =>
      .ok (tbl.map fun r => if r.id = uid then { r with balance := r.balance + v } else r, n)

/-- The balance read in Withdraw (users.go:276-288):
`SELECT balance FROM users WHERE id = $1` through `QueryRow`, giving the
`found` flag and the scan destination, which keeps its zero value when no row
is found. -/
def usersSelectBalance (tbl : List UserRow) (uid : Nat) : Bool × Int :=
  match tbl.find? fun r => decide (r.id = uid) with
  | some r => (true, r.balance)
  | none => (false, 0)

/-- Step 3 of Withdraw (users.go:294-299):
`UPDATE users SET balance = balance - $1, withdrawn = withdrawn + $1
 WHERE id = $2 AND balance >= $1`. -/
def usersWithdrawUpdate (tbl : List UserRow) (s : Int) (uid : Nat) :
    List UserRow × Nat :=
  (tbl.map fun r =>
     if r.id = uid ∧ s ≤ r.balance
     then { r with balance := r.balance - s, withdrawn := r.withdrawn + s }
     else r,
   (tbl.filter fun r => decide (r.id = uid ∧ s ≤ r.balance)).length)

/-- ledger.AddTransaction (part_012:193-211):
`INSERT INTO ledger (user_id, order_number, operation, value) VALUES (...)`.
It never conflicts; `ledger.value` is NOT NULL, so inserting a NULL sum is a
constraint violation. -/
def ledgerInsert (tbl : List LedgerRow) (uid : Nat) (onum : Int) (op : TxType)
    (v : Option Int) : Except Err (List LedgerRow) :=
  match v with
  | none => .error .notNullViolation
  | some v => .ok (tbl ++ [⟨uid, onum, op, v⟩])

/-- A `db.DB` handle (db.go:138-141): `tx` is nil for the pool-backed handle
and non-nil for the handle `Transaction` passes to its callback. -/
structure Handle where
  inTx : Bool
deriving DecidableEq

/-- db.Transaction (db.go:173-203), over an arbitrary state type σ holding the
writes made through the transaction-bound handle: a nested call (a handle whose
`tx` is already set) fails with ErrNestedTransaction before any transaction is
begun and without running the callback; otherwise `doWork` runs with a
transaction-bound handle, its state is committed iff it returns no error, and
on error the transaction's writes are discarded (rollback) and the error is
returned. -/
def Transaction {σ : Type} (db : Handle) (st : σ)
    (doWork : Handle → σ → Except Err σ) : σ × Option Err :=
  if db.inTx then (st, some .nestedTransaction)
  else
    match doWork ⟨true⟩ st with
    | .error e => (st, some e)
    | .ok st' => (st', none)

/-- orders.Accrue (part_003:295-329) with three Booleans injecting a transient
DB failure at each of its three statements. The function runs inside
`runEnv.DB().Transaction`, but only step 2 uses the transaction-bound handle
`db` that the callback receives: step 1 goes through `runEnv.Update`, and step
3 through `ledger.GetEnv().AddTransaction`, both of which execute on
`runEnv.DB()` — the pool-backed handle, outside the open transaction — so
their effects autocommit and survive a rollback. On any error the callback
returns it and the transaction rolls back, discarding only the users write of
step 2. -/
def AccrueFI (f1 f2 f3 : Bool) (o : OrderArg) (st : DBState) : DBState × Option Err :=
  -- step 1 (pool connection): update the order row; persists regardless of rollback
  if f1 then (st, some .dbError) else
  let u := ordersUpdate st.orders o.number o.status o.accrual
  let st1 : DBState := ⟨st.users, u.1, st.ledger⟩
  if u.2 = 0 then (st1, some .noSuchOrder) else
  -- step 2 (transaction-bound handle): credit the user's balance
  if f2 then (st1, some .dbError) else
  match usersAddBalance st.users o.accrual o.userId with
  | .error e => (st1, some e)
  | .ok ub =>
    if ub.2 = 0 then (st1, some .noSuchUser) else
    -- step 3 (pool connection): append the debit ledger entry
    if f3 then (st1, some .dbError) else
    match ledgerInsert st.ledger o.userId o.number .debit o.accrual with
    | .error e => (st1, some e)
    | .ok l2 => (⟨ub.1, u.1, l2⟩, none)

/-- orders.Accrue without injected failures. -/
def Accrue (o : OrderArg) (st : DBState) : DBState × Option Err :=
  AccrueFI false false false o st

/-- users.Withdraw, localEnv revision (users.go:271-315): read the balance and
run the guarded update through the transaction-bound handle, then append the
credit ledger entry through `ledger.GetEnv()` (the pool connection). On any
error the transaction rolls back the users write. -/
def Withdraw (uid : Nat) (onum : Int) (s : Int) (st : DBState) : DBState × Option Err :=
  let fb := usersSelectBalance st.users uid
  if fb.1 = false then (st, some .noSuchUser) else
  if fb.2 < s then (st, some .insufficientFunds) else
  let w := usersWithdrawUpdate st.users s uid
  if w.2 = 0 then (st, some .insufficientFunds) else
  match ledgerInsert st.ledger uid onum .credit (some s) with
  | .error e => (st, some e)
  | .ok l2 => (⟨w.1, st.orders, l2⟩, none)

/-- users.Withdraw, earlier Env-style revision (users.go:100-143). It discards
QueryRow's `found` flag and instead tests `balance == nil`; `balance` is a
fresh `&decimal.Decimal{}` and is never reassigned, so that test never holds
and the ErrNoSuchUser branch is unreachable: for a missing user the zero
balance left in the scan destination flows into the funds check. -/
def WithdrawEnvRev (uid : Nat) (onum : Int) (s : Int) (st : DBState) :
    DBState × Option Err :=
  let fb := usersSelectBalance st.users uid
  -- `if balance == nil { return ErrNoSuchUser }`: never taken
  if fb.2 < s then (st, some .insufficientFunds) else
  let w := usersWithdrawUpdate st.users s uid
  if w.2 = 0 then (st, some .insufficientFunds) else
  match ledgerInsert st.ledger uid onum .credit (some s) with
  | .error e => (st, some e)
  | .ok l2 => (⟨w.1, st.orders, l2⟩, none)

/-- The `sum` validation of handlerUserWithdraw (app_handlers.go:408):
`decimal.IsPositive`. -/
def sumIsPositive (s : Int) : Bool :=
  decide (0 < s)

/-- Sum of the `value` column over a user's ledger entries of one operation
kind; the two sums of spec invariant 1. -/
def opSum (l : List LedgerRow) (uid : Nat) (op : TxType) : Int :=
  ((l.filter fun r => decide (r.userId = uid ∧ r.operation = op)).map
    fun r => r.value).sum

/-- The double-entry bookkeeping invariant (spec §8, invariant 1): every user
row's balance is the sum of its debit entries minus the sum of its credit
entries, and its withdrawn counter is the sum of its credit entries. -/
def LedgerInv (st : DBState) : Prop :=
  ∀ r ∈ st.users,
    r.balance = opSum st.ledger r.id .debit - opSum st.ledger r.id .credit ∧
    r.withdrawn = opSum st.ledger r.id .credit

instance (st : DBState) : Decidable (LedgerInv st) := by
  unfold LedgerInv
  infer_instance

/-- The JSON body of a 200 accrual-service response
(accrualResponse, app_handlers.go:226-230). -/
structure AccrualBody where
  order : Int
  status : Status
  accrual : Option Int
deriving DecidableEq

/-- The outcome of one `http.Get` to the accrual service for one order, as
processOrders sees it after the library calls: `transportError` covers a
failing `http.Get`, body read or body close (all of which skip the order);
`resp` carries the HTTP status code, the `strconv.Atoi` result on the
`Retry-After` header, and the JSON-unmarshal result on the body. -/
inductive SvcResult
  | transportError
  | resp (statusCode : Nat) (retryAfter : Option Int) (body : Option AccrualBody)
deriving DecidableEq

/-- The observable actions of one poller pass: the per-order `http.Get`, every
`time.Sleep` (the 1-second pacing at the top of each iteration and the
Retry-After back-off of the 429 branch, in seconds), and each call to
orders.Accrue with the updated order it receives. -/
inductive PollEvent
  | getOrder (number : Int)
  | sleepSec (n : Int)
  | accrue (o : OrderArg)
deriving DecidableEq

/-- One iteration of processOrders' inner loop (app_handlers.go:256-328) on
order `o`, given the accrual service's behaviour `svc`: the pacing sleep, the
GET, and the handling of the response. Every skip branch of the Go code is
`continue toNextOrder`, which proceeds with the NEXT order of the pass — in
particular the 429 branch sleeps the parsed Retry-After seconds and then
continues with the next order. The Accrue result is only logged, so the pass
continues regardless of it. -/
def pollStep (svc : Int → SvcResult) (st : DBState) (o : OrderRow) :
    List PollEvent × DBState :=
  let pre : List PollEvent := [.sleepSec 1, .getOrder o.number]
  match svc o.number with
  | .transportError => (pre, st)
  | .resp code retryAfter body =>
    if code = 200 then
      match body with
      | none => (pre, st)
      | some data =>
        if data.order = o.number then
          if data.status = o.status then (pre, st)
          else
            let arg : OrderArg := ⟨o.number, o.userId, data.status, data.accrual⟩
            (pre ++ [.accrue arg], (Accrue arg st).1)
        else (pre, st)
    else if code = 429 then
      match retryAfter with
      | none => (pre, st)
      | some n => (pre ++ [.sleepSec n], st)
    else (pre, st)

/-- The inner loop of processOrders over the fetched order list, threading the
DB state and collecting the events of the pass. -/
def pollLoop (svc : Int → SvcResult) : DBState → List OrderRow →
    List PollEvent × DBState
  | st, [] => ([], st)
  | st, o :: rest =>
    let e := pollStep svc st o
    let e' := pollLoop svc e.2 rest
    (e.1 ++ e'.1, e'.2)

/-- The poller's fetch (app_handlers.go:245-250): orders.GetList with
`WHERE status != ANY($1)` and `$1 = {INVALID, PROCESSED}`. In PostgreSQL
`<> ANY(array)` is satisfied when the compared value differs from AT LEAST ONE
array element, so with two distinct elements the clause holds for every row
and the fetch returns every order, terminal ones included. -/
def pollFetch (st : DBState) : List OrderRow :=
  st.orders.filter fun r => decide (r.status ≠ .invalid ∨ r.status ≠ .processed)

/-- One full polling pass (app_handlers.go:239-329 minus the outer for):
fetch, then the inner loop. -/
def pollPass (svc : Int → SvcResult) (st : DBState) : List PollEvent × DBState :=
  pollLoop svc st (pollFetch st)

/-- The condition under which processOrders calls Accrue for an order, and the
updated order it passes (app_handlers.go:281-317): a 200 response with a
parseable body whose order number matches the requested one and whose status
differs from the stored one. -/
def accrualArg : SvcResult → OrderRow → Option OrderArg
  | .resp code _ (some data), o =>
    if code = 200 ∧ data.order = o.number ∧ data.status ≠ o.status
    then some ⟨o.number, o.userId, data.status, data.accrual⟩
    else none
  | _, _ => none

/-- A concrete accrual-service behaviour: 429 with `Retry-After: 2` for order
1, 204 No Content for every other order. -/
def svc429Then204 : Int → SvcResult :=
  fun n => if n = 1 then .resp 429 (some 2) none else .resp 204 none none

/-- A concrete accrual-service behaviour: every order gets 200 with body
`{"order":"1","status":"PROCESSING","accrual":3}`. -/
def svcProcessing3 : Int → SvcResult :=
  fun _ => .resp 200 none (some ⟨1, .processing, some 3⟩)

/-- A concrete transaction callback over a counter state, used to exercise
`Transaction`. -/
def txProbe : Handle → Nat → Except Err Nat :=
  fun _ n => .ok (n + 1)

/-! ## Helper lemmas -/

/-- Characterization of a successful Accrue: the accrual was non-null, the
user's balance gained it, and exactly one matching debit entry was appended. -/
theorem accrue_ok_char (o : OrderArg) (st st' : DBState)
    (h : Accrue o st = (st', none)) :
    ∃ a, o.accrual = some a ∧
      st'.users = st.users.map
        (fun r => if r.id = o.userId then { r with balance := r.balance + a } else r) ∧
      st'.ledger = st.ledger ++ [⟨o.userId, o.number, .debit, a⟩] := by
  unfold Accrue AccrueFI at h
  simp only [Bool.false_eq_true, if_false] at h
  split at h
  · simp at h
  · split at h
    · simp at h
    · rename_i ub heq
      split at h
      · simp at h
      · split at h
        · simp at h
        · rename_i l2 hl
          cases ha : o.accrual with
          | none => rw [ha] at hl; simp [ledgerInsert] at hl
          | some a =>
            rw [ha] at hl heq
            simp only [ledgerInsert, Except.ok.injEq] at hl
            simp only [usersAddBalance, Except.ok.injEq] at heq
            have h1 : st' = ⟨ub.1, (ordersUpdate st.orders o.number o.status o.accrual).1, l2⟩ := by
              have h2 := congrArg Prod.fst h
              simp at h2
              exact h2.symm
            refine ⟨a, rfl, ?_, ?_⟩
            · rw [h1, ← heq]
            · rw [h1, ← hl]

/-- Characterization of a successful Withdraw (localEnv revision): the first
row found for the user id had balance ≥ s, every row satisfying the SQL guard
was debited, a matching credit entry was appended, and orders are untouched. -/
theorem withdraw_ok_char (uid : Nat) (onum s : Int) (st st' : DBState)
    (h : Withdraw uid onum s st = (st', none)) :
    ∃ r, st.users.find? (fun q => decide (q.id = uid)) = some r ∧ s ≤ r.balance ∧
      st'.users = st.users.map
        (fun q => if q.id = uid ∧ s ≤ q.balance
          then { q with balance := q.balance - s, withdrawn := q.withdrawn + s }
          else q) ∧
      st'.ledger = st.ledger ++ [⟨uid, onum, .credit, s⟩] ∧
      st'.orders = st.orders := by
  unfold Withdraw usersSelectBalance at h
  cases hf : st.users.find? (fun q => decide (q.id = uid)) with
  | none => rw [hf] at h; simp at h
  | some r =>
    rw [hf] at h
    simp only [Bool.true_eq_false, if_false] at h
    split at h
    · simp at h
    · rename_i hbal
      split at h
      · simp at h
      · split at h
        · simp at h
        · rename_i l2 hl
          simp only [ledgerInsert, Except.ok.injEq] at hl
          have h1 : st' = ⟨(usersWithdrawUpdate st.users s uid).1, st.orders, l2⟩ := by
            have h2 := congrArg Prod.fst h
            simp at h2
            exact h2.symm
          refine ⟨r, rfl, by omega, ?_, ?_, ?_⟩
          · rw [h1]; rfl
          · rw [h1, ← hl]
          · rw [h1]

/-- Appending one ledger entry changes a user-and-operation sum by the entry's
value exactly when the entry matches. -/
theorem opSum_append (l : List LedgerRow) (e : LedgerRow) (uid : Nat) (op : TxType) :
    opSum (l ++ [e]) uid op =
      opSum l uid op + (if e.userId = uid ∧ e.operation = op then e.value else 0) := by
  by_cases h : e.userId = uid ∧ e.operation = op
  · simp [opSum, List.filter_append, h]
  · simp [opSum, List.filter_append, h]

/-! ## Claim theorems -/

/-- Claim C1: the double-entry invariant — every user row's balance equals the
sum of its debit ledger values minus the sum of its credit ledger values, and
its withdrawn counter equals the sum of its credit values — holds for a fresh
state (zeroed users, empty ledger) and is preserved by every successful Accrue
and every successful Withdraw. -/
theorem ledger_double_entry_invariant :
    (∀ st : DBState, st.ledger = [] →
        (∀ r ∈ st.users, r.balance = 0 ∧ r.withdrawn = 0) → LedgerInv st)
    ∧ (∀ (o : OrderArg) (st st' : DBState),
        LedgerInv st → Accrue o st = (st', none) → LedgerInv st')
    ∧ (∀ (uid : Nat) (onum s : Int) (st st' : DBState),
        LedgerInv st → Withdraw uid onum s st = (st', none) → LedgerInv st') := by
  refine ⟨?_, ?_, ?_⟩
  · intro st hl hu r hr
    have h := hu r hr
    simp [opSum, hl, h.1, h.2]
  · intro o st st' hInv h
    obtain ⟨a, _, hus, hld⟩ := accrue_ok_char o st st' h
    intro r' hr'
    rw [hus] at hr'
    obtain ⟨r, hr, rfl⟩ := List.mem_map.1 hr'
    have hir := hInv r hr
    rw [hld, opSum_append, opSum_append]
    by_cases hc : r.id = o.userId
    · rw [hc] at hir
      simp only [if_pos hc]
      simp [hc]
      omega
    · simp only [if_neg hc]
      have hc' : ¬(o.userId = r.id) := fun hx => hc hx.symm
      simp [hc']
      omega
  · intro uid onum s st st' hInv h
    obtain ⟨r, hf, hbal, hus, hld, _⟩ := withdraw_ok_char uid onum s st st' h
    have hrmem : r ∈ st.users := List.mem_of_find?_eq_some hf
    have hrid : r.id = uid := by
      have h1 := List.find?_some hf
      simpa using h1
    have hirr := hInv r hrmem
    rw [hrid] at hirr
    intro q' hq'
    rw [hus] at hq'
    obtain ⟨q, hq, rfl⟩ := List.mem_map.1 hq'
    have hiq := hInv q hq
    rw [hld, opSum_append, opSum_append]
    by_cases hc : q.id = uid
    · rw [hc] at hiq
      have hqbal : s ≤ q.balance := by omega
      simp [hc, hqbal]
      omega
    · have hcond : ¬(q.id = uid ∧ s ≤ q.balance) := fun hx => hc hx.1
      simp only [if_neg hcond]
      have hc' : ¬(uid = q.id) := fun hx => hc hx.symm
      simp [hc']
      omega

/-- Witness for claim C1: the invariant holds for a fresh user with an empty
ledger, and is carried to the state a concrete successful Accrue produces. -/
theorem ledger_double_entry_invariant_witness :
    LedgerInv ⟨[⟨7, 0, 0⟩], [⟨1, 7, .new, none⟩], []⟩ ∧
    LedgerInv ⟨[⟨7, 5, 0⟩], [⟨1, 7, .processed, some 5⟩], [⟨7, 1, .debit, 5⟩]⟩ :=
  ⟨ledger_double_entry_invariant.1 ⟨[⟨7, 0, 0⟩], [⟨1, 7, .new, none⟩], []⟩ rfl (by decide),
   ledger_double_entry_invariant.2.1 ⟨1, 7, .processed, some 5⟩
     ⟨[⟨7, 0, 0⟩], [⟨1, 7, .new, none⟩], []⟩
     ⟨[⟨7, 5, 0⟩], [⟨1, 7, .processed, some 5⟩], [⟨7, 1, .debit, 5⟩]⟩
     (by decide) (by decide)⟩

/-- Claim C2 (evaluation at the failing input): with order 1 (status NEW) and
user 7 both present, a transient failure injected at the ledger insert — after
the user-balance update and before any ledger write — makes Accrue return an
error with the users row and the ledger unchanged, but the orders row keeps
the new status and accrual: step 1 ran through `runEnv.DB()`, the pool
connection outside the open transaction, so the rollback does not undo it. -/
theorem accrue_fault_order_row_persists :
    AccrueFI false false true ⟨1, 7, .processed, some 5⟩
        ⟨[⟨7, 0, 0⟩], [⟨1, 7, .new, none⟩], []⟩ =
      (⟨[⟨7, 0, 0⟩], [⟨1, 7, .processed, some 5⟩], []⟩, some .dbError)
    ∧ (⟨[⟨7, 0, 0⟩], [⟨1, 7, .processed, some 5⟩], []⟩ : DBState).orders ≠
        (⟨[⟨7, 0, 0⟩], [⟨1, 7, .new, none⟩], []⟩ : DBState).orders := by
  decide

/-- Claim C3 (evaluation at the failing input): Accrue does not skip steps 2
and 3 for a null or zero accrual. With order 1 and user 7 present, a null
accrual (status INVALID) fails with a not-null violation on `users.balance` —
Accrue cannot succeed, and the order update, far from being the only step run,
persists while the transaction rolls back; a zero accrual (status PROCESSED)
succeeds but appends a zero-value debit ledger entry. -/
theorem accrue_null_zero_concrete :
    Accrue ⟨1, 7, .invalid, none⟩ ⟨[⟨7, 0, 0⟩], [⟨1, 7, .new, none⟩], []⟩ =
      (⟨[⟨7, 0, 0⟩], [⟨1, 7, .invalid, none⟩], []⟩, some .notNullViolation)
    ∧ Accrue ⟨1, 7, .processed, some 0⟩ ⟨[⟨7, 0, 0⟩], [⟨1, 7, .new, none⟩], []⟩ =
      (⟨[⟨7, 0, 0⟩], [⟨1, 7, .processed, some 0⟩], [⟨7, 1, .debit, 0⟩]⟩, none) := by
  decide

/-- Claim C4: every successful Withdraw(u, orderNumber, s) read a user row
whose pre-state balance was at least s, and the post state holds that row with
balance decreased by s and withdrawn increased by s. -/
theorem withdraw_success_balance_arith :
    ∀ (uid : Nat) (onum s : Int) (st st' : DBState),
      Withdraw uid onum s st = (st', none) →
      ∃ r, r ∈ st.users ∧
        st.users.find? (fun q => decide (q.id = uid)) = some r ∧
        s ≤ r.balance ∧
        ({ r with balance := r.balance - s, withdrawn := r.withdrawn + s } : UserRow)
          ∈ st'.users := by
  intro uid onum s st st' h
  obtain ⟨r, hf, hbal, hus, _, _⟩ := withdraw_ok_char uid onum s st st' h
  have hrmem := List.mem_of_find?_eq_some hf
  have hrid : r.id = uid := by simpa using List.find?_some hf
  refine ⟨r, hrmem, hf, hbal, ?_⟩
  rw [hus]
  apply List.mem_map.2
  refine ⟨r, hrmem, ?_⟩
  simp [hrid, hbal]

/-- Witness for claim C4: a concrete successful withdrawal of 3 from a balance
of 5. -/
theorem withdraw_success_balance_arith_witness :
    ∃ r, r ∈ (⟨[⟨7, 5, 0⟩], [], []⟩ : DBState).users ∧
      (⟨[⟨7, 5, 0⟩], [], []⟩ : DBState).users.find? (fun q => decide (q.id = 7)) = some r ∧
      (3 : Int) ≤ r.balance ∧
      ({ r with balance := r.balance - 3, withdrawn := r.withdrawn + 3 } : UserRow)
        ∈ (⟨[⟨7, 2, 3⟩], [], [⟨7, 2, .credit, 3⟩]⟩ : DBState).users :=
  withdraw_success_balance_arith 7 2 3 ⟨[⟨7, 5, 0⟩], [], []⟩
    ⟨[⟨7, 2, 3⟩], [], [⟨7, 2, .credit, 3⟩]⟩ (by decide)

/-- Claim C5 (counterexample): in the Env-style revision of Withdraw
(users.go:100-143), a userID with no user row fails with ErrInsufficientFunds,
not ErrNoSuchUser, because that revision's missing-user check compares a
never-nil pointer instead of the `found` flag. -/
theorem withdraw_env_rev_missing_user_counterexample :
    WithdrawEnvRev 7 1 100 ⟨[], [], []⟩ = (⟨[], [], []⟩, some .insufficientFunds)
    ∧ Err.insufficientFunds ≠ Err.noSuchUser := by
  decide

/-- Claim C5 as amended: in the operative localEnv revision of Withdraw
(users.go:271-315), a userID that matches no user row fails with ErrNoSuchUser
and leaves the state unchanged, for every order number and sum. -/
theorem withdraw_missing_user_no_such_user :
    ∀ (uid : Nat) (onum s : Int) (st : DBState),
      (∀ r ∈ st.users, r.id ≠ uid) →
      Withdraw uid onum s st = (st, some .noSuchUser) := by
  intro uid onum s st h
  have hf : st.users.find? (fun q => decide (q.id = uid)) = none := by
    rw [List.find?_eq_none]
    intro x hx
    simp [h x hx]
  unfold Withdraw usersSelectBalance
  rw [hf]
  simp

/-- Witness for the amended claim C5: user 9 does not exist in a state holding
only user 7. -/
theorem withdraw_missing_user_no_such_user_witness :
    Withdraw 9 1 5 ⟨[⟨7, 3, 0⟩], [], []⟩ =
      (⟨[⟨7, 3, 0⟩], [], []⟩, some .noSuchUser) :=
  withdraw_missing_user_no_such_user 9 1 5 ⟨[⟨7, 3, 0⟩], [], []⟩ (by decide)

/-- Claim C6 (counterexample): with two orders in the pass and the accrual
service answering 429 with Retry-After 2 for order 1, the pass sleeps 2
seconds and then still queries the service for order 2 — the 429 branch is
`continue toNextOrder`, so later orders of the same pass are not skipped. -/
theorem poller_429_queries_next_order :
    (pollLoop svc429Then204 ⟨[], [], []⟩
        [⟨1, 7, .new, none⟩, ⟨2, 7, .new, none⟩]).1 =
      [.sleepSec 1, .getOrder 1, .sleepSec 2, .sleepSec 1, .getOrder 2]
    ∧ PollEvent.getOrder 2 ∈
        (pollLoop svc429Then204 ⟨[], [], []⟩
          [⟨1, 7, .new, none⟩, ⟨2, 7, .new, none⟩]).1 := by
  decide

/-- Claim C6 as amended: when the accrual service answers an order with 429
and a well-formed integer Retry-After of n seconds, the poller sleeps n
seconds and then skips only that order, proceeding — with the database state
unchanged — to query the service for the remaining orders of the same pass. -/
theorem poller_429_sleeps_and_continues :
    ∀ (svc : Int → SvcResult) (st : DBState) (o : OrderRow) (rest : List OrderRow)
      (n : Int) (b : Option AccrualBody),
      svc o.number = .resp 429 (some n) b →
      pollLoop svc st (o :: rest) =
        ([.sleepSec 1, .getOrder o.number, .sleepSec n] ++ (pollLoop svc st rest).1,
         (pollLoop svc st rest).2) := by
  intro svc st o rest n b h
  simp [pollLoop, pollStep, h]

/-- Witness for the amended claim C6: order 1 draws the 429, order 2 is still
processed. -/
theorem poller_429_sleeps_and_continues_witness :
    pollLoop svc429Then204 ⟨[], [], []⟩
        (⟨1, 7, .new, none⟩ :: [⟨2, 7, .new, none⟩]) =
      ([.sleepSec 1, .getOrder 1, .sleepSec 2] ++
         (pollLoop svc429Then204 ⟨[], [], []⟩ [⟨2, 7, .new, none⟩]).1,
       (pollLoop svc429Then204 ⟨[], [], []⟩ [⟨2, 7, .new, none⟩]).2) :=
  poller_429_sleeps_and_continues svc429Then204 ⟨[], [], []⟩ ⟨1, 7, .new, none⟩
    [⟨2, 7, .new, none⟩] 2 none (by decide)

/-- Claim C7: in a poller pass, Accrue is invoked for an order exactly when
the accrual service returns 200 with a parseable body whose order number
equals the order's and whose status differs from the stored one — and then
with the order updated to the body's status and accrual; in every other case,
including an order-number mismatch or an unchanged status, the order is
skipped: no Accrue call appears in the events and the database state is
untouched. -/
theorem poller_accrue_iff_status_changed :
    ∀ (svc : Int → SvcResult) (st : DBState) (o : OrderRow),
      (∀ a, accrualArg (svc o.number) o = some a →
        pollStep svc st o =
          ([.sleepSec 1, .getOrder o.number, .accrue a], (Accrue a st).1))
      ∧ (accrualArg (svc o.number) o = none →
          (pollStep svc st o).2 = st
          ∧ ∀ a, PollEvent.accrue a ∉ (pollStep svc st o).1) := by
  intro svc st o
  constructor
  · intro a ha
    cases hs : svc o.number with
    | transportError => rw [hs] at ha; simp [accrualArg] at ha
    | resp code ra body =>
      rw [hs] at ha
      cases body with
      | none => simp [accrualArg] at ha
      | some data =>
        simp only [accrualArg] at ha
        split at ha
        · rename_i hcond
          rw [Option.some_inj] at ha
          subst ha
          obtain ⟨h200, hord, hst⟩ := hcond
          subst h200
          simp [pollStep, hs, hord, hst]
        · simp at ha
  · intro hn
    cases hs : svc o.number with
    | transportError => simp [pollStep, hs]
    | resp code ra body =>
      rw [hs] at hn
      by_cases h200 : code = 200
      · subst h200
        cases body with
        | none => simp [pollStep, hs]
        | some data =>
          simp only [accrualArg] at hn
          split at hn
          · cases hn
          · rename_i hcond
            by_cases hord : data.order = o.number
            · by_cases hstat : data.status = o.status
              · simp [pollStep, hs, hord, hstat]
              · exact absurd ⟨by trivial, hord, hstat⟩ hcond
            · simp [pollStep, hs, hord]
      · by_cases h429 : code = 429
        · subst h429
          cases ra with
          | none => simp [pollStep, hs]
          | some n => simp [pollStep, hs]
        · simp [pollStep, hs, h200, h429]

/-- Witness for claim C7: a 200 body with matching order number and a new
status makes the poller call Accrue with the updated order. -/
theorem poller_accrue_iff_status_changed_witness :
    pollStep svcProcessing3 ⟨[⟨7, 0, 0⟩], [⟨1, 7, .new, none⟩], []⟩ ⟨1, 7, .new, none⟩ =
      ([.sleepSec 1, .getOrder 1, .accrue ⟨1, 7, .processing, some 3⟩],
       (Accrue ⟨1, 7, .processing, some 3⟩ ⟨[⟨7, 0, 0⟩], [⟨1, 7, .new, none⟩], []⟩).1) :=
  (poller_accrue_iff_status_changed svcProcessing3
      ⟨[⟨7, 0, 0⟩], [⟨1, 7, .new, none⟩], []⟩ ⟨1, 7, .new, none⟩).1
    ⟨1, 7, .processing, some 3⟩ (by decide)

/-- Claim C8 (evaluation at the failing input): the fetch keeps an order in
terminal status PROCESSED, because `status != ANY({INVALID, PROCESSED})` holds
for every status, and when the accrual service then reports a different status
for it, the pass overwrites the terminal status and accrual. -/
theorem poller_fetches_and_mutates_terminal_order :
    pollFetch ⟨[⟨7, 5, 0⟩], [⟨1, 7, .processed, some 5⟩], [⟨7, 1, .debit, 5⟩]⟩ =
      [⟨1, 7, .processed, some 5⟩]
    ∧ (pollPass svcProcessing3
        ⟨[⟨7, 5, 0⟩], [⟨1, 7, .processed, some 5⟩], [⟨7, 1, .debit, 5⟩]⟩).2 =
      ⟨[⟨7, 8, 0⟩], [⟨1, 7, .processing, some 3⟩],
       [⟨7, 1, .debit, 5⟩, ⟨7, 1, .debit, 3⟩]⟩ := by
  decide

/-- Claim C9: Transaction commits the callback's state exactly when the
callback returns no error, returns the pre-state with the callback's error
otherwise (rollback), and on the transaction-bound handle the callback
receives — the one with `tx` set — a further Transaction call returns
ErrNestedTransaction with the state unchanged, whatever the inner callback is,
without running it. -/
theorem transaction_commit_iff_nested :
    ∀ (σ : Type) (st : σ) (fn : Handle → σ → Except Err σ),
      (∀ st₁, fn ⟨true⟩ st = .ok st₁ → Transaction ⟨false⟩ st fn = (st₁, none))
      ∧ (∀ e, fn ⟨true⟩ st = .error e → Transaction ⟨false⟩ st fn = (st, some e))
      ∧ (∀ (st₂ : σ) (fn₂ : Handle → σ → Except Err σ),
          Transaction ⟨true⟩ st₂ fn₂ = (st₂, some .nestedTransaction)) := by
  intro σ st fn
  refine ⟨?_, ?_, ?_⟩
  · intro st₁ h
    simp [Transaction, h]
  · intro e h
    simp [Transaction, h]
  · intro st₂ fn₂
    simp [Transaction]

/-- Witness for claim C9: a counter-incrementing callback commits, and a
nested call on a transaction-bound handle fails without touching the state. -/
theorem transaction_commit_iff_nested_witness :
    Transaction ⟨false⟩ 0 txProbe = (1, none)
    ∧ Transaction ⟨true⟩ 0 txProbe = (0, some .nestedTransaction) :=
  ⟨(transaction_commit_iff_nested Nat 0 txProbe).1 1 rfl,
   (transaction_commit_iff_nested Nat 0 txProbe).2.2 0 txProbe⟩

/-- Claim C10: Withdraw does not validate the sign of the sum. For an existing
user whose balance is non-negative and any sum s ≤ 0, the handler-side check
`sum.IsPositive` is false, yet Withdraw succeeds — the balance comparison and
the SQL guard `balance >= s` both hold — setting balance to balance − s (an
increase when s < 0), withdrawn to withdrawn + s, and appending a credit
ledger entry with the non-positive value s. -/
theorem withdraw_nonpositive_sum_succeeds :
    ∀ (uid : Nat) (onum s : Int) (st : DBState) (r : UserRow),
      st.users.find? (fun q => decide (q.id = uid)) = some r →
      0 ≤ r.balance → s ≤ 0 →
      sumIsPositive s = false
      ∧ ∃ st', Withdraw uid onum s st = (st', none)
        ∧ ({ r with balance := r.balance - s, withdrawn := r.withdrawn + s } : UserRow)
            ∈ st'.users
        ∧ st'.ledger = st.ledger ++ [⟨uid, onum, .credit, s⟩] := by
  intro uid onum s st r hf hb hs
  have hrid : r.id = uid := by simpa using List.find?_some hf
  have hrmem : r ∈ st.users := List.mem_of_find?_eq_some hf
  have hnlt : ¬(r.balance < s) := by omega
  have hcnt : ¬((usersWithdrawUpdate st.users s uid).2 = 0) := by
    unfold usersWithdrawUpdate
    simp only
    intro hzero
    rw [List.length_eq_zero] at hzero
    have hmem : r ∈ st.users.filter fun q => decide (q.id = uid ∧ s ≤ q.balance) := by
      rw [List.mem_filter]
      refine ⟨hrmem, ?_⟩
      simp [hrid]
      omega
    rw [hzero] at hmem
    simp at hmem
  refine ⟨by simp [sumIsPositive]; omega, ?_⟩
  refine ⟨⟨(usersWithdrawUpdate st.users s uid).1, st.orders,
    st.ledger ++ [⟨uid, onum, .credit, s⟩]⟩, ?_, ?_, rfl⟩
  · unfold Withdraw usersSelectBalance
    rw [hf]
    simp [hnlt, hcnt, ledgerInsert]
  · apply List.mem_map.2
    refine ⟨r, hrmem, ?_⟩
    have : r.id = uid ∧ s ≤ r.balance := ⟨hrid, by omega⟩
    simp [this]

/-- Witness for claim C10: withdrawing the negative sum −5 from user 7 with
balance 3 succeeds, raising the balance to 8 and lowering withdrawn to −5. -/
theorem withdraw_nonpositive_sum_succeeds_witness :
    sumIsPositive (-5) = false
    ∧ ∃ st', Withdraw 7 2 (-5) ⟨[⟨7, 3, 0⟩], [], []⟩ = (st', none)
      ∧ (⟨7, 3 - (-5), 0 + (-5)⟩ : UserRow) ∈ st'.users
      ∧ st'.ledger = (⟨[⟨7, 3, 0⟩], [], []⟩ : DBState).ledger ++ [⟨7, 2, .credit, -5⟩] :=
  withdraw_nonpositive_sum_succeeds 7 2 (-5) ⟨[⟨7, 3, 0⟩], [], []⟩ ⟨7, 3, 0⟩
    (by decide) (by decide) (by decide)

end Gophermart
